/-
Verification of the model-construction core of the tiling-problem repository
(src/tiling/simple_tiling_instance.py and src/tiling/simple_cpsat_solver.py).

Embedding conventions:
* Python floats (edge labels, coordinates) are modelled by rationals.
* `math.cos(amount * π/2)` / `math.sin(amount * π/2)` are modelled by their
  exact values `qcos` / `qsin` (the source comments describe them as exact
  quarter-turn constants).
* `math.hypot dx dy < eps` is modelled by the equivalent
  `dx^2 + dy^2 < eps^2` (both sides are nonnegative and `eps > 0`).
* A Python `set` built from a list is modelled by `pyset`, which keeps one
  copy of each element; iteration order of the set is modelled as the order
  of the surviving occurrences of the underlying list.
* `raise ValueError` for an invalid reflection axis is modelled by `Option`
  (`none` = the call raises).
* Dictionaries keyed by grid cells are modelled by functions / association
  lists; a CP-SAT boolean assignment is a function from variable positions
  to `Bool`.
-/
import Mathlib

namespace Tiling

/-- Local coordinates of a drawable point. -/
abbrev Point := ℚ × ℚ

/-- The default tolerance `1e-8` used by every comparison in the source. -/
def epsilon : ℚ := 1 / 100000000

/-- Predicate `point_almost_equal p q`: Euclidean distance below `epsilon`, in the
equivalent squared form `dx^2 + dy^2 < epsilon^2`. -/
def point_almost_equal (p q : Point) : Bool :=
  decide ((p.1 - q.1) ^ 2 + (p.2 - q.2) ^ 2 < epsilon ^ 2)

/-- Drawable segment of a tile type (`TileTypeDrawSegment`). -/
structure TileTypeDrawSegment where
  local_start : Point
  local_end : Point
deriving DecidableEq

/-- Drawable vertex of a tile type (`TileTypeDrawVertex`). -/
structure TileTypeDrawVertex where
  location : Point
deriving DecidableEq

/-- Predicate `segment_almost_equal`: endpoints correspond under either direction. -/
def segment_almost_equal (s1 s2 : TileTypeDrawSegment) : Bool :=
  (point_almost_equal s1.local_start s2.local_start &&
    point_almost_equal s1.local_end s2.local_end) ||
  (point_almost_equal s1.local_start s2.local_end &&
    point_almost_equal s1.local_end s2.local_start)

/-- Exact value of `math.cos (k * π/2)`. -/
def qcos (k : ℕ) : ℚ :=
  match k % 4 with
  | 0 => 1
  | 1 => 0
  | 2 => -1
  | _ => 0

/-- Exact value of `math.sin (k * π/2)`. -/
def qsin (k : ℕ) : ℚ :=
  match k % 4 with
  | 0 => 0
  | 1 => 1
  | 2 => 0
  | _ => -1

def TileTypeDrawSegment.rotate (s : TileTypeDrawSegment) (amount : ℕ) :
    TileTypeDrawSegment :=
  { local_start :=
      (s.local_start.1 * qcos amount - s.local_start.2 * qsin amount,
       s.local_start.1 * qsin amount + s.local_start.2 * qcos amount),
    local_end :=
      (s.local_end.1 * qcos amount - s.local_end.2 * qsin amount,
       s.local_end.1 * qsin amount + s.local_end.2 * qcos amount) }

def TileTypeDrawSegment.translate (s : TileTypeDrawSegment) (amount : Point) :
    TileTypeDrawSegment :=
  { local_start := (s.local_start.1 + amount.1, s.local_start.2 + amount.2),
    local_end := (s.local_end.1 + amount.1, s.local_end.2 + amount.2) }

/-- Segment reflection; `none` models the `ValueError` raised for an axis
other than `"x"` or `"y"`.  Axis `"x"` negates the x-coordinates, axis `"y"`
negates the y-coordinates, exactly as in the source. -/
def TileTypeDrawSegment.reflect (s : TileTypeDrawSegment) (axis : String) :
    Option TileTypeDrawSegment :=
  if axis = "x" then
    some { local_start := (-s.local_start.1, s.local_start.2),
           local_end := (-s.local_end.1, s.local_end.2) }
  else if axis = "y" then
    some { local_start := (s.local_start.1, -s.local_start.2),
           local_end := (s.local_end.1, -s.local_end.2) }
  else none

def TileTypeDrawVertex.rotate (v : TileTypeDrawVertex) (amount : ℕ) :
    TileTypeDrawVertex :=
  { location :=
      (v.location.1 * qcos amount - v.location.2 * qsin amount,
       v.location.1 * qsin amount + v.location.2 * qcos amount) }

def TileTypeDrawVertex.translate (v : TileTypeDrawVertex) (amount : Point) :
    TileTypeDrawVertex :=
  { location := (v.location.1 + amount.1, v.location.2 + amount.2) }

def TileTypeDrawVertex.reflect (v : TileTypeDrawVertex) (axis : String) :
    Option TileTypeDrawVertex :=
  if axis = "x" then some { location := (-v.location.1, v.location.2) }
  else if axis = "y" then some { location := (v.location.1, -v.location.2) }
  else none

/-- A tile-type drawing: lists of segments and vertices. -/
structure TileTypeDrawing where
  segments : List TileTypeDrawSegment
  vertices : List TileTypeDrawVertex
deriving DecidableEq

def TileTypeDrawing.rotate (d : TileTypeDrawing) (amount : ℕ) :
    TileTypeDrawing :=
  { segments := d.segments.map (fun s => s.rotate amount),
    vertices := d.vertices.map (fun v => v.rotate amount) }

def TileTypeDrawing.reflect (d : TileTypeDrawing) (axis : String) :
    Option TileTypeDrawing :=
  (d.segments.mapM (fun s : TileTypeDrawSegment => s.reflect axis)).bind
    (fun segs =>
      (d.vertices.mapM (fun v : TileTypeDrawVertex => v.reflect axis)).map
        (fun verts => { segments := segs, vertices := verts }))

def TileTypeDrawing.translate (d : TileTypeDrawing) (amount : Point) :
    TileTypeDrawing :=
  { segments := d.segments.map (fun s => s.translate amount),
    vertices := d.vertices.map (fun v => v.translate amount) }

/-- Model of Python's `set(l)`: one copy of each element survives; we keep
the last occurrence, so the relative order is that of the original list. -/
def pyset {α : Type} [DecidableEq α] : List α → List α
  | [] => []
  | a :: rest => if a ∈ rest then pyset rest else a :: pyset rest

/-- One step of the greedy matching loop: find the first element of the pool
accepted by `p` and return the pool with that element removed. -/
def greedyRemove {α : Type} (p : α → Bool) : List α → Option (List α)
  | [] => none
  | a :: rest =>
    if p a then some rest
    else (greedyRemove p rest).map (fun r => a :: r)

/-- The greedy first-match loop of `TileTypeDrawing.is_almost_equal`: each
element of the first list consumes the first still-unused matching element
of the pool; the result is `false` as soon as one element finds no match. -/
def greedyAll {α β : Type} (matches_ : β → α → Bool) :
    List β → List α → Bool
  | [], _ => true
  | b :: bs, pool =>
    match greedyRemove (matches_ b) pool with
    | none => false
    | some pool' => greedyAll matches_ bs pool'

/-- Method `TileTypeDrawing.is_almost_equal`: greedily match every vertex of `d1`
against the set of `d2`'s vertices, then every segment of `d1` against the
set of `d2`'s segments. -/
def TileTypeDrawing.is_almost_equal (d1 d2 : TileTypeDrawing) : Bool :=
  greedyAll (fun (b : TileTypeDrawVertex) (a : TileTypeDrawVertex) =>
      point_almost_equal b.location a.location)
    d1.vertices (pyset d2.vertices) &&
  greedyAll (fun (b : TileTypeDrawSegment) (a : TileTypeDrawSegment) =>
      segment_almost_equal b a)
    d1.segments (pyset d2.segments)

/-- A tile type: name, four edge-label lists, a drawing and the internal
back-reference `actual_index` (default `-1`). -/
structure TileType where
  name : String
  bottom_edges : List ℚ
  top_edges : List ℚ
  left_edges : List ℚ
  right_edges : List ℚ
  drawing : TileTypeDrawing
  actual_index : ℤ := -1
deriving DecidableEq

instance : Inhabited TileType :=
  ⟨{ name := "", bottom_edges := [], top_edges := [], left_edges := [],
     right_edges := [], drawing := { segments := [], vertices := [] } }⟩

/-- Method `TileType.boundaries`: the four edge lists in the order
bottom, right, top, left. -/
def TileType.boundaries (t : TileType) : List (List ℚ) :=
  [t.bottom_edges, t.right_edges, t.top_edges, t.left_edges]

/-- Method `TileType.rotate`: the source forms
`ccw_order = [bottom, right, top, left]` and takes
`ccw_order[-amount:] + ccw_order[:-amount]`, which for a four-element list
equals dropping the first `4 - min amount 4` elements and appending them. -/
def TileType.rotated_order (t : TileType) (amount : ℕ) : List (List ℚ) :=
  t.boundaries.drop (4 - min amount 4) ++ t.boundaries.take (4 - min amount 4)

def TileType.rotate (t : TileType) (amount : ℕ) : TileType :=
  { name := t.name,
    bottom_edges := (t.rotated_order amount).getD 0 [],
    right_edges := (t.rotated_order amount).getD 1 [],
    top_edges := (t.rotated_order amount).getD 2 [],
    left_edges := (t.rotated_order amount).getD 3 [],
    drawing := t.drawing.rotate amount }

/-- Method `TileType.reflect`: axis `"x"` negates bottom/top labels and swaps
left/right; axis `"y"` negates left/right labels and swaps bottom/top;
any other axis raises (`none`). -/
def TileType.reflect (t : TileType) (axis : String) : Option TileType :=
  if axis = "x" then
    (t.drawing.reflect axis).map (fun dr =>
      { name := t.name,
        bottom_edges := t.bottom_edges.map (fun e => -e),
        right_edges := t.left_edges,
        top_edges := t.top_edges.map (fun e => -e),
        left_edges := t.right_edges,
        drawing := dr })
  else if axis = "y" then
    (t.drawing.reflect axis).map (fun dr =>
      { name := t.name,
        bottom_edges := t.top_edges,
        right_edges := t.right_edges.map (fun e => -e),
        top_edges := t.bottom_edges,
        left_edges := t.left_edges.map (fun e => -e),
        drawing := dr })
  else none

/-- Method `TileType.is_almost_equal` compares the drawings only. -/
def TileType.is_almost_equal (t o : TileType) : Bool :=
  t.drawing.is_almost_equal o.drawing

/-- A tiling instance. -/
structure TilingInstance where
  instance_name : String
  tile_types : List TileType
  tile_type_counts : List ℤ
  width : ℕ
  height : ℕ
deriving DecidableEq

/-- Sorting performed by validation: `boundary.sort()` on each of the four
edge lists of a tile (Python's stable ascending sort). -/
def sortTileEdges (t : TileType) : TileType :=
  { t with
    bottom_edges := t.bottom_edges.insertionSort (fun a b => a ≤ b),
    top_edges := t.top_edges.insertionSort (fun a b => a ≤ b),
    left_edges := t.left_edges.insertionSort (fun a b => a ≤ b),
    right_edges := t.right_edges.insertionSort (fun a b => a ≤ b) }

/-- Validator `TilingInstance.check_counts`: rejects mismatched lengths and negative
counts (`none` models the raised `ValueError`), then sorts every edge list
of every tile type in place. -/
def TilingInstance.check_counts (inst : TilingInstance) :
    Option TilingInstance :=
  if inst.tile_types.length ≠ inst.tile_type_counts.length then none
  else if inst.tile_type_counts.any (fun c => decide (c < 0)) then none
  else some { inst with tile_types := inst.tile_types.map sortTileEdges }

namespace SimpleCPSATSolver

/-- Method `_do_reflect`: apply a reflection axis combination.  All combinations
use valid axes, so the `Option` returned by `TileType.reflect` is always
`some`; `getD` only supplies an unreachable fallback. -/
def do_reflect (tile_type : TileType) (axis_comb : String) : TileType :=
  if axis_comb = "" then tile_type
  else if axis_comb = "x" then (tile_type.reflect "x").getD tile_type
  else if axis_comb = "y" then (tile_type.reflect "y").getD tile_type
  else
    (((tile_type.reflect "x").bind (fun t => t.reflect "y")).getD tile_type)

/-- The reflection combinations enumerated by `_actual_tile_types`. -/
def refCombos (allow_reflections : Bool) : List String :=
  if allow_reflections then ["", "x", "y", "xy"] else [""]

/-- The rotation amounts enumerated by `_actual_tile_types`. -/
def rotAmounts (allow_rotations : Bool) : List ℕ :=
  if allow_rotations then [0, 1, 2, 3] else [0]

/-- Innermost step of `_actual_tile_types`: rotate the reflected tile, drop
it if it is `is_almost_equal` to an already accepted orientation, otherwise
tag it with `actual_index` and append it. -/
def rotStep (actual_index : ℤ) (reflected : TileType) (result : List TileType)
    (rot : ℕ) : List TileType :=
  if (result.any (fun t => (reflected.rotate rot).is_almost_equal t)) then
    result
  else result ++ [{ reflected.rotate rot with actual_index := actual_index }]

/-- Middle loop of `_actual_tile_types`: one reflection combination, all
rotation amounts. -/
def refStep (allow_rotations : Bool) (actual_index : ℤ) (tile_type : TileType)
    (result : List TileType) (ref : String) : List TileType :=
  (rotAmounts allow_rotations).foldl
    (rotStep actual_index (do_reflect tile_type ref)) result

/-- Method `_actual_tile_types`: for every base tile type (with its 0-based
position), every allowed reflection combination and rotation, append the
orientation unless a geometrically identical one was already accepted. -/
def actual_tile_types (tile_types : List TileType)
    (allow_rotations allow_reflections : Bool) : List TileType :=
  tile_types.enum.foldl
    (fun result p =>
      (refCombos allow_reflections).foldl
        (refStep allow_rotations (p.1 : ℤ) p.2) result)
    []

/-- One insertion step of `_compute_boundary_types`: an unseen boundary is
assigned the next dense id by appending it to the list. -/
def insertBoundary (bts : List (List ℚ)) (b : List ℚ) : List (List ℚ) :=
  if b ∈ bts then bts else bts ++ [b]

/-- Method `_compute_boundary_types`: collect the boundaries of every orientation
in the order bottom, right, top, left; the id of a boundary is its position
in the resulting duplicate-free list. -/
def compute_boundary_types (tiles : List TileType) : List (List ℚ) :=
  tiles.foldl (fun bts t => t.boundaries.foldl insertBoundary bts) []

/-- The id assigned to a boundary by the registry: its position in
`compute_boundary_types` (the dictionary `boundary_to_index`). -/
def boundary_to_index (tiles : List TileType) (b : List ℚ) : ℕ :=
  @List.indexOf (List ℚ) instBEqOfDecidableEq b (compute_boundary_types tiles)

/-- Orientation positions presenting boundary-type id `b` on their top side
(`actual_tiles_with_top_type`). -/
def actual_tiles_with_top_type (tiles : List TileType) (b : ℕ) : List ℕ :=
  (List.range tiles.length).filter
    (fun i => decide (boundary_to_index tiles (tiles.getD i default).top_edges = b))

/-- Orientation positions presenting boundary-type id `b` on their bottom
side. -/
def actual_tiles_with_bottom_type (tiles : List TileType) (b : ℕ) : List ℕ :=
  (List.range tiles.length).filter
    (fun i => decide (boundary_to_index tiles (tiles.getD i default).bottom_edges = b))

/-- Orientation positions presenting boundary-type id `b` on their left
side. -/
def actual_tiles_with_left_type (tiles : List TileType) (b : ℕ) : List ℕ :=
  (List.range tiles.length).filter
    (fun i => decide (boundary_to_index tiles (tiles.getD i default).left_edges = b))

/-- Orientation positions presenting boundary-type id `b` on their right
side. -/
def actual_tiles_with_right_type (tiles : List TileType) (b : ℕ) : List ℕ :=
  (List.range tiles.length).filter
    (fun i => decide (boundary_to_index tiles (tiles.getD i default).right_edges = b))

/-- The grid cells in the iteration order of `_make_cell_vars`
(`y` outer, `x` inner). -/
def cellList (W H : ℕ) : List (ℕ × ℕ) :=
  (List.range H).flatMap (fun y => (List.range W).map (fun x => (x, y)))

/-- The adjacent ordered cell pairs for which `_make_boundary_vars`
allocates boundary variables: for each cell, its upper and its right
neighbour when inside the grid. -/
def pairList (W H : ℕ) : List ((ℕ × ℕ) × (ℕ × ℕ)) :=
  (cellList W H).flatMap (fun c =>
    ([(c, (c.1, c.2 + 1)), (c, (c.1 + 1, c.2))]).filter
      (fun p => decide (p.2.1 < W ∧ p.2.2 < H)))

/-- Semantics of CP-SAT's `add_exactly_one` over the variables indexed by
`0, …, n-1`. -/
def exactlyOneTrue (n : ℕ) (v : ℕ → Bool) : Prop :=
  ((Finset.range n).filter (fun j => v j = true)).card = 1

instance (n : ℕ) (v : ℕ → Bool) : Decidable (exactlyOneTrue n v) := by
  unfold exactlyOneTrue; infer_instance

/-- Semantics of the two constraints added by `_add_boundary_constraint`
for a boundary variable `bv` and the matching cell variables `cvs ∘ il`:
`add_bool_or (¬bv :: cvs)` and one `add_implication cv → bv` per matching
cell variable. -/
def boundaryConstraintSat (bv : Bool) (cvs : ℕ → Bool) (il : List ℕ) : Prop :=
  (bv = true → ∃ i ∈ il, cvs i = true) ∧
  (∀ i ∈ il, cvs i = true → bv = true)

instance (bv : Bool) (cvs : ℕ → Bool) (il : List ℕ) :
    Decidable (boundaryConstraintSat bv cvs il) := by
  unfold boundaryConstraintSat; infer_instance

/-- A boolean assignment satisfies every constraint emitted by the model
builder that links cell and boundary variables: exactly-one per cell
(`_make_cell_vars`), exactly-one per adjacent pair (`_make_boundary_vars`),
and, per pair and boundary-type id, the disjunction/implication constraints
of `_add_boundary_constraints` — top/bottom types for a vertical pair
(`below`), right/left types for a horizontal pair. -/
def satisfiesModel (tiles : List TileType) (W H : ℕ)
    (cv : ℕ × ℕ → ℕ → Bool) (bv : (ℕ × ℕ) × (ℕ × ℕ) → ℕ → Bool) : Prop :=
  (∀ c ∈ cellList W H, exactlyOneTrue tiles.length (cv c)) ∧
  (∀ p ∈ pairList W H,
    exactlyOneTrue (compute_boundary_types tiles).length (bv p)) ∧
  (∀ p ∈ pairList W H, ∀ b < (compute_boundary_types tiles).length,
    if p.1.2 < p.2.2 then
      boundaryConstraintSat (bv p b) (cv p.1)
        (actual_tiles_with_top_type tiles b) ∧
      boundaryConstraintSat (bv p b) (cv p.2)
        (actual_tiles_with_bottom_type tiles b)
    else
      boundaryConstraintSat (bv p b) (cv p.1)
        (actual_tiles_with_right_type tiles b) ∧
      boundaryConstraintSat (bv p b) (cv p.2)
        (actual_tiles_with_left_type tiles b))

instance (tiles : List TileType) (W H : ℕ) (cv : ℕ × ℕ → ℕ → Bool)
    (bv : (ℕ × ℕ) × (ℕ × ℕ) → ℕ → Bool) :
    Decidable (satisfiesModel tiles W H cv bv) := by
  unfold satisfiesModel; infer_instance

/-- Value of the linear expression summed by `_make_cell_vars` for base
type `i` at cell `c`: the number of true cell variables at `c` whose
orientation carries `actual_index = i`. -/
def matching_card (tiles : List TileType) (cv : ℕ × ℕ → ℕ → Bool)
    (c : ℕ × ℕ) (i : ℕ) : ℕ :=
  ((Finset.range tiles.length).filter
    (fun j => (tiles.getD j default).actual_index = (i : ℤ) ∧ cv c j = true)).card

/-- The statuses the external CP-SAT solving engine can report. -/
inductive CpSolverStatus where
  | optimal
  | feasible
  | infeasible
  | unknown
  | model_invalid
deriving DecidableEq

/-- The failures `solve` can raise: the two extraction integrity errors and
the fatal error for an unexpected status. -/
inductive SolveError where
  | multiple_tile_types
  | no_tile_type
  | solver_failed (status : CpSolverStatus)
deriving DecidableEq

/-- The per-cell extraction loop: scan the cell's variables in order,
remembering the index already stored for this cell; a second true variable
raises `multiple_tile_types` (the `(x, y) in result` check). -/
def extract_cell_go : List Bool → ℕ → Option ℕ →
    Except SolveError (Option ℕ)
  | [], _, acc => .ok acc
  | v :: rest, i, acc =>
    if v then
      match acc with
      | some _ => .error .multiple_tile_types
      | none => extract_cell_go rest (i + 1) (some i)
    else extract_cell_go rest (i + 1) acc

/-- Extract the unique true variable index of one cell; no true variable
raises `no_tile_type`. -/
def extract_cell (vals : List Bool) : Except SolveError ℕ :=
  match extract_cell_go vals 0 none with
  | .error e => .error e
  | .ok none => .error .no_tile_type
  | .ok (some i) => .ok i

/-- Walk every cell and map it to the orientation of its unique true cell
variable. -/
def extract_solution (tiles : List TileType) (cells : List (ℕ × ℕ))
    (vals : ℕ × ℕ → List Bool) :
    Except SolveError (List ((ℕ × ℕ) × TileType)) :=
  cells.mapM (fun c =>
    (extract_cell (vals c)).map (fun i => (c, tiles.getD i default)))

/-- Method `SimpleCPSATSolver.solve` as a function of the engine's terminal status
and the boolean values it reports: optimal/feasible proceed to extraction,
infeasible yields the explicit no-solution result, anything else is a fatal
solver error. -/
def solve (status : CpSolverStatus) (tiles : List TileType)
    (cells : List (ℕ × ℕ)) (vals : ℕ × ℕ → List Bool) :
    Except SolveError (Option (List ((ℕ × ℕ) × TileType))) :=
  if status = .optimal ∨ status = .feasible then
    (extract_solution tiles cells vals).map (fun m => some m)
  else if status = .infeasible then .ok none
  else .error (.solver_failed status)

end SimpleCPSATSolver

open SimpleCPSATSolver

/-! Generic facts about `List.foldl` used to reason about the growing
orientation list and the boundary-type registry. -/

theorem foldl_mem_mono {α β : Type} {g : List α → β → List α}
    (hg : ∀ acc b, ∀ x ∈ acc, x ∈ g acc b) :
    ∀ (l : List β) (acc : List α), ∀ x ∈ acc, x ∈ List.foldl g acc l := by
  intro l
  induction l with
  | nil => intro acc x hx; simpa using hx
  | cons b bs ih =>
    intro acc x hx
    rw [List.foldl_cons]
    exact ih (g acc b) x (hg acc b x hx)

theorem foldl_establishes {α β : Type} {P : β → List α → Prop}
    {g : List α → β → List α}
    (hg : ∀ acc b, ∀ x ∈ acc, x ∈ g acc b)
    (hmono : ∀ b acc acc', (∀ x ∈ acc, x ∈ acc') → P b acc → P b acc')
    (hstep : ∀ acc b, P b (g acc b)) :
    ∀ (l : List β) (acc : List α), ∀ b ∈ l, P b (List.foldl g acc l) := by
  intro l
  induction l with
  | nil => intro acc b hb; cases hb
  | cons b0 bs ih =>
    intro acc b hb
    rw [List.foldl_cons]
    rcases List.mem_cons.mp hb with rfl | hb'
    · exact hmono b _ _ (fun x hx => foldl_mem_mono hg bs (g acc b) x hx)
        (hstep acc b)
    · exact ih (g acc b0) b hb'

theorem foldl_preserves {α β : Type} {Q : α → Prop} {g : α → β → α}
    (hg : ∀ acc b, Q acc → Q (g acc b)) :
    ∀ (l : List β) (acc : α), Q acc → Q (List.foldl g acc l) := by
  intro l
  induction l with
  | nil => intro acc h; simpa using h
  | cons b bs ih =>
    intro acc h
    rw [List.foldl_cons]
    exact ih (g acc b) (hg acc b h)

/-! Facts about the boundary-type registry. -/

theorem mem_insertBoundary_self (bts : List (List ℚ)) (b : List ℚ) :
    b ∈ insertBoundary bts b := by
  unfold insertBoundary
  split
  · assumption
  · exact List.mem_append_right _ (List.mem_singleton.mpr rfl)

theorem mem_insertBoundary_of_mem {bts : List (List ℚ)} {x b : List ℚ}
    (hx : x ∈ bts) : x ∈ insertBoundary bts b := by
  unfold insertBoundary
  split
  · exact hx
  · exact List.mem_append_left _ hx

theorem nodup_insertBoundary {bts : List (List ℚ)} (h : bts.Nodup)
    (b : List ℚ) : (insertBoundary bts b).Nodup := by
  unfold insertBoundary
  split
  · exact h
  · next hnot =>
    refine List.Nodup.append h (List.nodup_singleton b) ?_
    intro x hx hxb
    rw [List.mem_singleton.mp hxb] at hx
    exact hnot hx

theorem mem_foldl_insertBoundary {bds : List (List ℚ)} {b : List ℚ}
    (hb : b ∈ bds) (acc : List (List ℚ)) :
    b ∈ bds.foldl insertBoundary acc :=
  foldl_establishes (P := fun b acc => b ∈ acc)
    (fun _ b x hx => mem_insertBoundary_of_mem hx)
    (fun _ _ _ hsub hP => hsub _ hP)
    (fun acc b => mem_insertBoundary_self acc b) bds acc b hb

theorem mem_compute_boundary_types {tiles : List TileType} {t : TileType}
    (ht : t ∈ tiles) {b : List ℚ} (hb : b ∈ t.boundaries) :
    b ∈ compute_boundary_types tiles := by
  have := foldl_establishes
    (P := fun (t : TileType) (bts : List (List ℚ)) =>
      ∀ b ∈ t.boundaries, b ∈ bts)
    (g := fun bts t => t.boundaries.foldl insertBoundary bts)
    (fun acc t x hx =>
      foldl_mem_mono (fun _ b x hx => mem_insertBoundary_of_mem hx)
        t.boundaries acc x hx)
    (fun t _ _ hsub hP b hb => hsub b (hP b hb))
    (fun acc t b hb => mem_foldl_insertBoundary hb acc)
    tiles [] t ht
  exact this b hb

theorem nodup_compute_boundary_types (tiles : List TileType) :
    (compute_boundary_types tiles).Nodup := by
  refine foldl_preserves (Q := fun bts : List (List ℚ) => bts.Nodup)
    ?_ tiles [] List.nodup_nil
  intro acc t hacc
  exact foldl_preserves (Q := fun bts : List (List ℚ) => bts.Nodup)
    (fun acc b h => nodup_insertBoundary h b) t.boundaries acc hacc

/-! Example data used to instantiate theorems with hypotheses and to refute
failing claims on concrete inputs. -/

/-- Empty drawing. -/
def exDrawEmpty : TileTypeDrawing := { segments := [], vertices := [] }

/-- Tile with empty edges and an empty drawing. -/
def exA : TileType :=
  { name := "a", bottom_edges := [], top_edges := [], left_edges := [],
    right_edges := [], drawing := exDrawEmpty }

/-- Second tile with the same (empty) drawing as `exA`. -/
def exB : TileType :=
  { name := "b", bottom_edges := [], top_edges := [], left_edges := [],
    right_edges := [], drawing := exDrawEmpty }

/-- Tile with some non-trivial edge lists. -/
def exC : TileType :=
  { name := "c", bottom_edges := [1], top_edges := [2], left_edges := [],
    right_edges := [1], drawing := exDrawEmpty }

/-- Tile whose bottom edge list has two distinct labels. -/
def exS : TileType :=
  { name := "s", bottom_edges := [1, 2], top_edges := [], left_edges := [],
    right_edges := [], drawing := exDrawEmpty }

/-- Tile `exA` tagged with `actual_index = 0`, as the orientation generator
would produce it. -/
def exA0 : TileType := { exA with actual_index := 0 }

/-- Instance holding `exS`, used to exercise validation. -/
def instS : TilingInstance :=
  { instance_name := "s", tile_types := [exS], tile_type_counts := [1],
    width := 1, height := 1 }

/-- The validated form of `instS`. -/
def instSV : TilingInstance :=
  { instance_name := "s", tile_types := [sortTileEdges exS],
    tile_type_counts := [1], width := 1, height := 1 }

/-- Tile `exS` after validation and one x-reflection. -/
def exSVrx : TileType := ((sortTileEdges exS).reflect "x").getD default

/-- Drawing with a single vertex at the origin. -/
def exDrawOneVertex : TileTypeDrawing :=
  { segments := [], vertices := [{ location := (0, 0) }] }

/-- Drawing listing the same vertex twice. -/
def exDrawDupVertex : TileTypeDrawing :=
  { segments := [], vertices := [{ location := (0, 0) }, { location := (0, 0) }] }

/-- C6: the boundary-type registry built from any orientation list contains
every boundary of every orientation, contains no duplicate label list,
assigns equal ids exactly to identical label lists, and its ids are the
dense integers `0, …, n-1` (every id is below the registry size and every
such integer is the id of some registered boundary). -/
theorem C6_boundary_registry (tiles : List TileType) :
    (∀ t ∈ tiles, ∀ b ∈ t.boundaries, b ∈ compute_boundary_types tiles) ∧
    (compute_boundary_types tiles).Nodup ∧
    (∀ b1 ∈ compute_boundary_types tiles, ∀ b2 ∈ compute_boundary_types tiles,
      (boundary_to_index tiles b1 = boundary_to_index tiles b2 ↔ b1 = b2)) ∧
    (∀ b ∈ compute_boundary_types tiles,
      boundary_to_index tiles b < (compute_boundary_types tiles).length) ∧
    (∀ k < (compute_boundary_types tiles).length,
      ∃ b ∈ compute_boundary_types tiles, boundary_to_index tiles b = k) := by
  unfold boundary_to_index
  refine ⟨fun t ht b hb => mem_compute_boundary_types ht hb,
    nodup_compute_boundary_types tiles,
    fun b1 h1 b2 h2 => List.indexOf_inj h1 h2,
    fun b hb => List.indexOf_lt_length.mpr hb,
    fun k hk => ?_⟩
  refine ⟨(compute_boundary_types tiles).get ⟨k, hk⟩, List.get_mem _ _ hk, ?_⟩
  simpa using List.indexOf_getElem (nodup_compute_boundary_types tiles) k hk

/-- Witness for C6 at the concrete catalog `[exC]`. -/
theorem C6_boundary_registry_witness :
    (exC.bottom_edges ∈ compute_boundary_types [exC]) ∧
    (boundary_to_index [exC] exC.bottom_edges =
        boundary_to_index [exC] exC.right_edges ↔
      exC.bottom_edges = exC.right_edges) ∧
    (boundary_to_index [exC] exC.top_edges <
      (compute_boundary_types [exC]).length) ∧
    (∃ b ∈ compute_boundary_types [exC], boundary_to_index [exC] b = 2) :=
  ⟨(C6_boundary_registry [exC]).1 exC (List.mem_singleton.mpr rfl)
      exC.bottom_edges (by decide),
    (C6_boundary_registry [exC]).2.2.1 exC.bottom_edges (by decide)
      exC.right_edges (by decide),
    (C6_boundary_registry [exC]).2.2.2.1 exC.top_edges (by decide),
    (C6_boundary_registry [exC]).2.2.2.2 2 (by decide)⟩

/-! Claim C1: consequences of the linking constraints. -/

theorem boundary_to_index_lt {tiles : List TileType} {b : List ℚ}
    (h : b ∈ compute_boundary_types tiles) :
    boundary_to_index tiles b < (compute_boundary_types tiles).length := by
  unfold boundary_to_index
  exact List.indexOf_lt_length.mpr h

theorem boundary_to_index_inj {tiles : List TileType} {b1 b2 : List ℚ}
    (h1 : b1 ∈ compute_boundary_types tiles)
    (h2 : b2 ∈ compute_boundary_types tiles)
    (h : boundary_to_index tiles b1 = boundary_to_index tiles b2) :
    b1 = b2 := by
  unfold boundary_to_index at h
  exact (List.indexOf_inj h1 h2).mp h

theorem exactlyOne_unique {n : ℕ} {v : ℕ → Bool} (h : exactlyOneTrue n v)
    {a b : ℕ} (ha : a < n) (hb : b < n) (hva : v a = true)
    (hvb : v b = true) : a = b := by
  obtain ⟨x, hx⟩ := Finset.card_eq_one.mp h
  have h1 : a ∈ (Finset.range n).filter (fun j => v j = true) :=
    Finset.mem_filter.mpr ⟨Finset.mem_range.mpr ha, hva⟩
  have h2 : b ∈ (Finset.range n).filter (fun j => v j = true) :=
    Finset.mem_filter.mpr ⟨Finset.mem_range.mpr hb, hvb⟩
  rw [hx] at h1 h2
  exact (Finset.mem_singleton.mp h1).trans (Finset.mem_singleton.mp h2).symm

theorem linking_forces_bv {tiles : List TileType} {bvpb : Bool}
    {cvc : ℕ → Bool} {f : TileType → List ℚ} {b : ℕ}
    (hset : boundaryConstraintSat bvpb cvc
      ((List.range tiles.length).filter
        (fun j => decide
          (boundary_to_index tiles (f (tiles.getD j default)) = b))))
    {i : ℕ} (hi : i < tiles.length)
    (hb : boundary_to_index tiles (f (tiles.getD i default)) = b)
    (hcv : cvc i = true) : bvpb = true := by
  refine hset.2 i ?_ hcv
  simp only [List.mem_filter, List.mem_range, decide_eq_true_eq]
  exact ⟨hi, hb⟩

theorem getD_mem_of_lt {tiles : List TileType} {i : ℕ}
    (hi : i < tiles.length) : tiles.getD i default ∈ tiles := by
  rw [List.getD_eq_getElem tiles default hi]
  exact List.getElem_mem hi

/-- C1: in every boolean assignment satisfying all constraints emitted by
the model builder (exactly-one per cell, exactly-one per adjacent pair and
the disjunction/implication linking constraints), any two orientations
selected in adjacent cells present identical edge-label tuples on the shared
side: top/bottom tuples agree for a vertical pair (lower cell first),
right/left tuples agree for a horizontal pair (left cell first). -/
theorem C1_boundary_matching (tiles : List TileType) (W H : ℕ)
    (cv : ℕ × ℕ → ℕ → Bool) (bv : (ℕ × ℕ) × (ℕ × ℕ) → ℕ → Bool)
    (hsat : satisfiesModel tiles W H cv bv)
    (p : (ℕ × ℕ) × (ℕ × ℕ)) (hp : p ∈ pairList W H)
    (i1 i2 : ℕ) (h1 : i1 < tiles.length) (h2 : i2 < tiles.length)
    (hc1 : cv p.1 i1 = true) (hc2 : cv p.2 i2 = true) :
    if p.1.2 < p.2.2 then
      (tiles.getD i1 default).top_edges = (tiles.getD i2 default).bottom_edges
    else
      (tiles.getD i1 default).right_edges = (tiles.getD i2 default).left_edges := by
  obtain ⟨hone, honeB, hlink⟩ := hsat
  have hlinkp := hlink p hp
  by_cases hd : p.1.2 < p.2.2
  · rw [if_pos hd]
    have hm1 : (tiles.getD i1 default).top_edges ∈ compute_boundary_types tiles :=
      mem_compute_boundary_types (getD_mem_of_lt h1)
        (by simp [TileType.boundaries])
    have hm2 : (tiles.getD i2 default).bottom_edges ∈ compute_boundary_types tiles :=
      mem_compute_boundary_types (getD_mem_of_lt h2)
        (by simp [TileType.boundaries])
    have hb1 := boundary_to_index_lt hm1
    have hb2 := boundary_to_index_lt hm2
    have hc := hlinkp (boundary_to_index tiles (tiles.getD i1 default).top_edges) hb1
    rw [if_pos hd] at hc
    have hc' := hlinkp (boundary_to_index tiles (tiles.getD i2 default).bottom_edges) hb2
    rw [if_pos hd] at hc'
    have hA := hc.1
    unfold actual_tiles_with_top_type at hA
    have hB := hc'.2
    unfold actual_tiles_with_bottom_type at hB
    have hbv1 : bv p (boundary_to_index tiles (tiles.getD i1 default).top_edges) = true :=
      linking_forces_bv (f := fun t => t.top_edges) hA h1 rfl hc1
    have hbv2 : bv p (boundary_to_index tiles (tiles.getD i2 default).bottom_edges) = true :=
      linking_forces_bv (f := fun t => t.bottom_edges) hB h2 rfl hc2
    exact boundary_to_index_inj hm1 hm2
      (exactlyOne_unique (honeB p hp) hb1 hb2 hbv1 hbv2)
  · rw [if_neg hd]
    have hm1 : (tiles.getD i1 default).right_edges ∈ compute_boundary_types tiles :=
      mem_compute_boundary_types (getD_mem_of_lt h1)
        (by simp [TileType.boundaries])
    have hm2 : (tiles.getD i2 default).left_edges ∈ compute_boundary_types tiles :=
      mem_compute_boundary_types (getD_mem_of_lt h2)
        (by simp [TileType.boundaries])
    have hb1 := boundary_to_index_lt hm1
    have hb2 := boundary_to_index_lt hm2
    have hc := hlinkp (boundary_to_index tiles (tiles.getD i1 default).right_edges) hb1
    rw [if_neg hd] at hc
    have hc' := hlinkp (boundary_to_index tiles (tiles.getD i2 default).left_edges) hb2
    rw [if_neg hd] at hc'
    have hA := hc.1
    unfold actual_tiles_with_right_type at hA
    have hB := hc'.2
    unfold actual_tiles_with_left_type at hB
    have hbv1 : bv p (boundary_to_index tiles (tiles.getD i1 default).right_edges) = true :=
      linking_forces_bv (f := fun t => t.right_edges) hA h1 rfl hc1
    have hbv2 : bv p (boundary_to_index tiles (tiles.getD i2 default).left_edges) = true :=
      linking_forces_bv (f := fun t => t.left_edges) hB h2 rfl hc2
    exact boundary_to_index_inj hm1 hm2
      (exactlyOne_unique (honeB p hp) hb1 hb2 hbv1 hbv2)

/-- Witness for C1: the one-tile catalog `[exA]` on a 1×2 grid with the
all-true assignment satisfies every emitted constraint, and the conclusion
holds at the single vertical pair. -/
theorem C1_boundary_matching_witness :
    satisfiesModel [exA] 1 2 (fun _ _ => true) (fun _ _ => true) ∧
    (if ((0, 0) : ℕ × ℕ).2 < ((0, 1) : ℕ × ℕ).2 then
      ([exA].getD 0 default).top_edges = ([exA].getD 0 default).bottom_edges
    else
      ([exA].getD 0 default).right_edges = ([exA].getD 0 default).left_edges) :=
  ⟨by decide,
    C1_boundary_matching [exA] 1 2 (fun _ _ => true) (fun _ _ => true)
      (by decide) (((0, 0), (0, 1))) (by decide) 0 0 (by decide) (by decide)
      rfl rfl⟩

/-! Claim C5: the cardinality constraints conserve the tile-type counts. -/

theorem matching_card_eq {tiles : List TileType} {cv : ℕ × ℕ → ℕ → Bool}
    {c : ℕ × ℕ} {i : ℕ} {mc : ℕ}
    (hone : exactlyOneTrue tiles.length (cv c))
    (hmc : mc < tiles.length) (hcvt : cv c mc = true) :
    matching_card tiles cv c i =
      if (tiles.getD mc default).actual_index = (i : ℤ) then 1 else 0 := by
  obtain ⟨x, hx⟩ := Finset.card_eq_one.mp hone
  have hmem : mc ∈ (Finset.range tiles.length).filter
      (fun j => cv c j = true) :=
    Finset.mem_filter.mpr ⟨Finset.mem_range.mpr hmc, hcvt⟩
  rw [hx, Finset.mem_singleton] at hmem
  subst hmem
  unfold matching_card
  have hsplit : (Finset.range tiles.length).filter
      (fun j => (tiles.getD j default).actual_index = (i : ℤ) ∧ cv c j = true) =
      ((Finset.range tiles.length).filter (fun j => cv c j = true)).filter
        (fun j => (tiles.getD j default).actual_index = (i : ℤ)) := by
    rw [Finset.filter_filter]
    apply Finset.filter_congr
    intro j _
    constructor
    · intro h; exact ⟨h.2, h.1⟩
    · intro h; exact ⟨h.2, h.1⟩
  rw [hsplit, hx, Finset.filter_singleton]
  split
  · simp
  · simp

theorem map_sum_eq_countP {γ : Type} (l : List γ) (f : γ → ℕ) (pr : γ → Bool)
    (h : ∀ c ∈ l, f c = if pr c = true then 1 else 0) :
    (l.map f).sum = l.countP pr := by
  induction l with
  | nil => simp
  | cons a l ih =>
    rw [List.map_cons, List.sum_cons, List.countP_cons,
      h a (List.mem_cons_self a l),
      ih (fun c hc => h c (List.mem_cons_of_mem a hc))]
    by_cases hpa : pr a = true
    · omega
    · omega

/-- C5: if an assignment satisfies the exactly-one constraint of every cell
and the linear equality of `_make_cell_vars` for base type `i` (the sum,
over all cells and all orientations with `actual_index = i`, of the true
cell variables equals `counts[i]`), then the number of cells whose selected
orientation carries `actual_index = i` is exactly `counts[i]`. -/
theorem C5_count_conservation (tiles : List TileType) (counts : List ℤ)
    (W H : ℕ) (cv : ℕ × ℕ → ℕ → Bool) (m : ℕ × ℕ → ℕ) (i : ℕ)
    (hone : ∀ c ∈ cellList W H, exactlyOneTrue tiles.length (cv c))
    (hm : ∀ c ∈ cellList W H, m c < tiles.length ∧ cv c (m c) = true)
    (hconstraint :
      ((((cellList W H).map (fun c => matching_card tiles cv c i)).sum : ℕ) : ℤ) =
        counts.getD i 0) :
    ((((cellList W H).countP
        (fun c => decide ((tiles.getD (m c) default).actual_index = (i : ℤ)))) : ℕ) : ℤ) =
      counts.getD i 0 := by
  rw [← hconstraint]
  have hcells : ∀ c ∈ cellList W H,
      matching_card tiles cv c i =
        if (fun c => decide
            ((tiles.getD (m c) default).actual_index = (i : ℤ))) c = true
        then 1 else 0 := by
    intro c hc
    rw [matching_card_eq (hone c hc) (hm c hc).1 (hm c hc).2]
    simp only [decide_eq_true_eq]
  rw [map_sum_eq_countP (cellList W H) _ _ hcells]

/-- Witness for C5 on a 1×1 grid with one orientation of `actual_index 0`
and required count 1. -/
theorem C5_count_conservation_witness :
    (∀ c ∈ cellList 1 1, exactlyOneTrue [exA0].length (fun _ => true)) ∧
    (∀ c ∈ cellList 1 1, (fun _ : ℕ × ℕ => 0) c < [exA0].length ∧ true = true) ∧
    ((((cellList 1 1).map
        (fun c => matching_card [exA0] (fun _ _ => true) c 0)).sum : ℤ) =
      ([(1 : ℤ)]).getD 0 0) ∧
    ((((cellList 1 1).countP
        (fun c => decide (([exA0].getD 0 default).actual_index = ((0 : ℕ) : ℤ)))) : ℕ) : ℤ) =
      ([(1 : ℤ)]).getD 0 0 :=
  ⟨by decide, by decide, by decide,
    C5_count_conservation [exA0] [(1 : ℤ)] 1 1 (fun _ _ => true)
      (fun _ => 0) 0 (by decide) (by decide) (by decide)⟩

/-! Claim C2: sortedness of edge lists. -/

theorem rotated_order_subset {t : TileType} {k : ℕ} :
    ∀ x ∈ t.rotated_order k, x ∈ t.boundaries := by
  intro x hx
  unfold TileType.rotated_order at hx
  rcases List.mem_append.mp hx with h | h
  · exact List.drop_subset _ _ h
  · exact List.take_subset _ _ h

theorem rotated_order_length (t : TileType) (k : ℕ) :
    (t.rotated_order k).length = 4 := by
  unfold TileType.rotated_order TileType.boundaries
  rw [List.length_append, List.length_drop, List.length_take]
  simp only [List.length_cons, List.length_nil]
  omega

theorem mem_boundaries_rotate {t : TileType} {k : ℕ} {bd : List ℚ}
    (h : bd ∈ (t.rotate k).boundaries) : bd ∈ t.boundaries := by
  have hlen := rotated_order_length t k
  have hget : ∀ idx : ℕ, idx < 4 → (t.rotated_order k).getD idx [] ∈ t.boundaries := by
    intro idx hidx
    refine rotated_order_subset (k := k) _ ?_
    rw [List.getD_eq_getElem (t.rotated_order k) [] (by omega)]
    exact List.getElem_mem _
  simp only [TileType.boundaries, TileType.rotate, List.mem_cons,
    List.not_mem_nil, or_false] at h
  rcases h with h | h | h | h
  · exact h ▸ hget 0 (by omega)
  · exact h ▸ hget 1 (by omega)
  · exact h ▸ hget 2 (by omega)
  · exact h ▸ hget 3 (by omega)

theorem check_counts_tile_types {inst instV : TilingInstance}
    (h : inst.check_counts = some instV) :
    instV.tile_types = inst.tile_types.map sortTileEdges := by
  unfold TilingInstance.check_counts at h
  split at h
  · exact absurd h (by simp)
  split at h
  · exact absurd h (by simp)
  cases h
  rfl

/-- C2 counterexample: the validated instance `instS` holds the tile
`sortTileEdges exS` with sorted bottom list `[1, 2]`; a single x-reflection
— a legal orientation transform — yields bottom list `[-1, -2]`, which is
not sorted ascending. -/
theorem C2_sorted_counterexample :
    instS.check_counts = some instSV ∧
    sortTileEdges exS ∈ instSV.tile_types ∧
    (sortTileEdges exS).bottom_edges = [1, 2] ∧
    (sortTileEdges exS).reflect "x" = some exSVrx ∧
    exSVrx.bottom_edges = [-1, -2] ∧
    ¬ List.Sorted (fun a b => a ≤ b) exSVrx.bottom_edges := by
  refine ⟨by decide, by decide, by decide, by decide, by decide, ?_⟩
  rw [show exSVrx.bottom_edges = [-1, -2] from by decide]
  intro hs
  have := List.rel_of_sorted_cons hs (-2) (List.mem_singleton.mpr rfl)
  norm_num at this

/-- C2 amended: after validation every edge-label list of every tile type
is sorted ascending, and `rotate` preserves this (it only permutes the four
lists); `reflect`, however, negates two of the lists element-wise without
re-sorting, so orientations produced using reflections need not have sorted
edge lists (see the counterexample). -/
theorem C2_sorted_amended :
    (∀ inst instV : TilingInstance, inst.check_counts = some instV →
      ∀ t ∈ instV.tile_types, ∀ bd ∈ t.boundaries,
        List.Sorted (fun a b => a ≤ b) bd) ∧
    (∀ t : TileType, (∀ bd ∈ t.boundaries, List.Sorted (fun a b => a ≤ b) bd) →
      ∀ k : ℕ, ∀ bd ∈ (t.rotate k).boundaries,
        List.Sorted (fun a b => a ≤ b) bd) := by
  constructor
  · intro inst instV h t ht bd hbd
    rw [check_counts_tile_types h] at ht
    obtain ⟨t0, _, rfl⟩ := List.mem_map.mp ht
    simp only [TileType.boundaries, sortTileEdges, List.mem_cons,
      List.not_mem_nil, or_false] at hbd
    rcases hbd with h | h | h | h <;>
      exact h ▸ List.sorted_insertionSort (fun a b => a ≤ b) _
  · intro t hs k bd hbd
    exact hs bd (mem_boundaries_rotate hbd)

/-- Witness for the amended C2 at the concrete instance `instS`. -/
theorem C2_sorted_amended_witness :
    instS.check_counts = some instSV ∧
    List.Sorted (fun a b => a ≤ b) (sortTileEdges exS).bottom_edges ∧
    List.Sorted (fun a b => a ≤ b) ((sortTileEdges exS).rotate 1).bottom_edges :=
  ⟨by decide,
    C2_sorted_amended.1 instS instSV (by decide) (sortTileEdges exS)
      (by decide) (sortTileEdges exS).bottom_edges (by decide),
    C2_sorted_amended.2 (sortTileEdges exS) (by decide) 1
      ((sortTileEdges exS).rotate 1).bottom_edges (by decide)⟩

/-! Claim C4: which base types contribute an orientation. -/

theorem mem_rotStep {ai : ℤ} {refl : TileType} {result : List TileType}
    {rot : ℕ} {x : TileType} (hx : x ∈ result) :
    x ∈ rotStep ai refl result rot := by
  unfold rotStep
  split
  · exact hx
  · exact List.mem_append_left _ hx

theorem mem_refStep {ar : Bool} {ai : ℤ} {tt : TileType}
    {result : List TileType} {ref : String} {x : TileType}
    (hx : x ∈ result) : x ∈ refStep ar ai tt result ref := by
  unfold refStep
  exact foldl_mem_mono (fun acc rot x hx => mem_rotStep hx)
    (rotAmounts ar) result x hx

theorem do_reflect_empty (t : TileType) : do_reflect t "" = t := by
  simp [do_reflect]

/-- C4 counterexample: two base tile types with identical (empty) drawings;
every generated orientation of the second is `is_almost_equal` to the
already accepted identity orientation of the first, so no orientation in
the result carries `actual_index = 1`. -/
theorem C4_identity_counterexample :
    ¬ ∀ i < ([exA, exB] : List TileType).length,
        ∃ t ∈ actual_tile_types [exA, exB] true true,
          t.actual_index = (i : ℤ) := by
  decide

/-- C4 amended: for every base-type index `i`, the generated orientation
list contains an orientation that either carries `actual_index = i` or is
geometrically `is_almost_equal` to tile `i`'s identity orientation — the
identity candidate is only dropped when it is merged into a previously
accepted, geometrically identical orientation (which then keeps its own,
first-seen `actual_index`). -/
theorem C4_identity_orientation (tts : List TileType)
    (allow_rotations allow_reflections : Bool) (i : ℕ) (hi : i < tts.length) :
    ∃ t ∈ actual_tile_types tts allow_rotations allow_reflections,
      t.actual_index = (i : ℤ) ∨
        ((tts.getD i default).rotate 0).is_almost_equal t = true := by
  have hstep : ∀ (acc : List TileType) (p : ℕ × TileType),
      ∃ t ∈ (refCombos allow_reflections).foldl
          (refStep allow_rotations (p.1 : ℤ) p.2) acc,
        t.actual_index = (p.1 : ℤ) ∨
          ((p.2.rotate 0).is_almost_equal t = true) := by
    intro acc p
    obtain ⟨rest, hrest⟩ : ∃ rest, refCombos allow_reflections = "" :: rest := by
      cases allow_reflections
      · exact ⟨[], rfl⟩
      · exact ⟨["x", "y", "xy"], rfl⟩
    rw [hrest, List.foldl_cons]
    have hinner : ∃ t ∈ refStep allow_rotations (p.1 : ℤ) p.2 acc "",
        t.actual_index = (p.1 : ℤ) ∨
          ((p.2.rotate 0).is_almost_equal t = true) := by
      unfold refStep
      rw [do_reflect_empty]
      obtain ⟨rest', hrest'⟩ : ∃ rest', rotAmounts allow_rotations = 0 :: rest' := by
        cases allow_rotations
        · exact ⟨[], rfl⟩
        · exact ⟨[1, 2, 3], rfl⟩
      rw [hrest', List.foldl_cons]
      have hfirst : ∃ t ∈ rotStep (p.1 : ℤ) p.2 acc 0,
          t.actual_index = (p.1 : ℤ) ∨
            ((p.2.rotate 0).is_almost_equal t = true) := by
        unfold rotStep
        by_cases hany :
            (acc.any (fun t => (p.2.rotate 0).is_almost_equal t)) = true
        · rw [if_pos hany]
          obtain ⟨t, ht, hiae⟩ := List.any_eq_true.mp hany
          exact ⟨t, ht, Or.inr hiae⟩
        · rw [if_neg hany]
          refine ⟨{ p.2.rotate 0 with actual_index := (p.1 : ℤ) },
            List.mem_append_right _ (List.mem_singleton.mpr rfl), Or.inl rfl⟩
      obtain ⟨t, ht, hor⟩ := hfirst
      exact ⟨t, foldl_mem_mono (fun acc rot x hx => mem_rotStep hx)
        rest' _ t ht, hor⟩
    obtain ⟨t, ht, hor⟩ := hinner
    exact ⟨t, foldl_mem_mono (fun acc ref x hx => mem_refStep hx)
      rest _ t ht, hor⟩
  have henum : ((i, tts.getD i default) : ℕ × TileType) ∈ tts.enum := by
    rw [List.mem_enum_iff_getElem?]
    rw [List.getElem?_eq_getElem hi, List.getD_eq_getElem tts default hi]
  exact foldl_establishes
    (P := fun (p : ℕ × TileType) (res : List TileType) =>
      ∃ t ∈ res, t.actual_index = (p.1 : ℤ) ∨
        ((p.2.rotate 0).is_almost_equal t = true))
    (g := fun result p =>
      (refCombos allow_reflections).foldl
        (refStep allow_rotations (p.1 : ℤ) p.2) result)
    (fun acc p x hx =>
      foldl_mem_mono (fun acc ref x hx => mem_refStep hx)
        (refCombos allow_reflections) acc x hx)
    (fun p acc acc' hsub hP => by
      obtain ⟨t, ht, hor⟩ := hP
      exact ⟨t, hsub t ht, hor⟩)
    (fun acc p => hstep acc p) tts.enum [] (i, tts.getD i default) henum

/-- Witness for the amended C4 at the two-tile catalog `[exA, exB]`. -/
theorem C4_identity_orientation_witness :
    (1 : ℕ) < ([exA, exB] : List TileType).length ∧
    ∃ t ∈ actual_tile_types [exA, exB] true true,
      t.actual_index = ((1 : ℕ) : ℤ) ∨
        ((([exA, exB] : List TileType).getD 1 default).rotate 0).is_almost_equal t
          = true :=
  ⟨by decide, C4_identity_orientation [exA, exB] true true 1 (by decide)⟩

/-! Facts about the greedy matching of `is_almost_equal`
(claims C3, C9, C10). -/

theorem greedyRemove_spec {α : Type} {p : α → Bool} {l l' : List α}
    (h : greedyRemove p l = some l') :
    ∃ a, p a = true ∧ l.Perm (a :: l') := by
  induction l generalizing l' with
  | nil => simp [greedyRemove] at h
  | cons x rest ih =>
    unfold greedyRemove at h
    by_cases hpx : p x = true
    · rw [if_pos hpx] at h
      cases h
      exact ⟨x, hpx, List.Perm.refl _⟩
    · rw [if_neg hpx] at h
      obtain ⟨r, hr, rfl⟩ := Option.map_eq_some'.mp h
      obtain ⟨a, hpa, hperm⟩ := ih hr
      exact ⟨a, hpa, (hperm.cons x).trans (List.Perm.swap a x r)⟩

theorem greedyAll_subperm {α β : Type} {f : β → α → Bool} :
    ∀ {bs : List β} {pool : List α}, greedyAll f bs pool = true →
      ∃ picks : List α,
        List.Forall₂ (fun b a => f b a = true) bs picks ∧
          picks.Subperm pool := by
  intro bs
  induction bs with
  | nil =>
    intro pool _
    exact ⟨[], List.Forall₂.nil, List.nil_subperm⟩
  | cons b bs ih =>
    intro pool h
    unfold greedyAll at h
    cases hgr : greedyRemove (f b) pool with
    | none => rw [hgr] at h; cases h
    | some pool' =>
      rw [hgr] at h
      obtain ⟨a, hfa, hperm⟩ := greedyRemove_spec hgr
      obtain ⟨picks, hf2, hsub⟩ := ih h
      refine ⟨a :: picks, List.Forall₂.cons hfa hf2, ?_⟩
      obtain ⟨u, hu_perm, hu_sub⟩ := hsub
      exact List.Subperm.trans ⟨a :: u, hu_perm.cons a, hu_sub.cons₂ a⟩
        hperm.symm.subperm

theorem pyset_sublist {α : Type} [DecidableEq α] (l : List α) :
    (pyset l).Sublist l := by
  induction l with
  | nil => simp [pyset]
  | cons a rest ih =>
    unfold pyset
    split
    · exact ih.cons a
    · exact ih.cons₂ a

theorem pyset_eq_self {α : Type} [DecidableEq α] {l : List α}
    (h : l.Nodup) : pyset l = l := by
  induction l with
  | nil => rfl
  | cons a rest ih =>
    obtain ⟨hna, hrest⟩ := List.nodup_cons.mp h
    unfold pyset
    rw [if_neg hna, ih hrest]

theorem greedyAll_self {α : Type} {f : α → α → Bool}
    (hrefl : ∀ a, f a a = true) : ∀ l : List α, greedyAll f l l = true := by
  intro l
  induction l with
  | nil => rfl
  | cons a rest ih => simp [greedyAll, greedyRemove, hrefl a, ih]

theorem point_almost_equal_self (p : Point) :
    point_almost_equal p p = true := by
  unfold point_almost_equal
  simp only [decide_eq_true_eq, sub_self]
  unfold epsilon
  norm_num

theorem segment_almost_equal_self (s : TileTypeDrawSegment) :
    segment_almost_equal s s = true := by
  unfold segment_almost_equal
  rw [point_almost_equal_self, point_almost_equal_self]
  rfl

theorem is_almost_equal_self {d : TileTypeDrawing}
    (hv : d.vertices.Nodup) (hs : d.segments.Nodup) :
    d.is_almost_equal d = true := by
  unfold TileTypeDrawing.is_almost_equal
  rw [pyset_eq_self hv, pyset_eq_self hs,
    greedyAll_self (fun v => point_almost_equal_self v.location),
    greedyAll_self (fun s => segment_almost_equal_self s)]
  rfl

theorem seg_reflect_reflect {axis : String} (hax : axis = "x" ∨ axis = "y")
    (s : TileTypeDrawSegment) :
    ∃ s1, s.reflect axis = some s1 ∧ s1.reflect axis = some s := by
  obtain ⟨⟨x1, y1⟩, ⟨x2, y2⟩⟩ := s
  rcases hax with rfl | rfl
  · exact ⟨_, rfl, by simp [TileTypeDrawSegment.reflect]⟩
  · exact ⟨_, rfl, by simp [TileTypeDrawSegment.reflect]⟩

theorem vert_reflect_reflect {axis : String} (hax : axis = "x" ∨ axis = "y")
    (v : TileTypeDrawVertex) :
    ∃ v1, v.reflect axis = some v1 ∧ v1.reflect axis = some v := by
  obtain ⟨⟨x, y⟩⟩ := v
  rcases hax with rfl | rfl
  · exact ⟨_, rfl, by simp [TileTypeDrawVertex.reflect]⟩
  · exact ⟨_, rfl, by simp [TileTypeDrawVertex.reflect]⟩

theorem mapM_involutive {α : Type} (f : α → Option α)
    (h : ∀ a, ∃ a1, f a = some a1 ∧ f a1 = some a) :
    ∀ l : List α, ∃ l1, l.mapM f = some l1 ∧ l1.mapM f = some l := by
  intro l
  induction l with
  | nil => exact ⟨[], rfl, rfl⟩
  | cons a rest ih =>
    obtain ⟨a1, ha1, ha2⟩ := h a
    obtain ⟨l1, hl1, hl2⟩ := ih
    refine ⟨a1 :: l1, ?_, ?_⟩
    · rw [List.mapM_cons, ha1, hl1]; rfl
    · rw [List.mapM_cons, ha2, hl2]; rfl

theorem drawing_reflect_reflect {axis : String}
    (hax : axis = "x" ∨ axis = "y") (d : TileTypeDrawing) :
    (d.reflect axis).bind (fun e => e.reflect axis) = some d := by
  obtain ⟨segs1, hs1, hs2⟩ :=
    mapM_involutive _ (seg_reflect_reflect hax) d.segments
  obtain ⟨verts1, hv1, hv2⟩ :=
    mapM_involutive _ (vert_reflect_reflect hax) d.vertices
  unfold TileTypeDrawing.reflect
  rw [hs1, hv1]
  simp only [Option.map_some', Option.some_bind]
  rw [hs2, hv2]
  rfl

/-- The two-sided correspondence described by the specification for claim
C3: a bijective pairing of all of `d2`'s vertices with all of `d1`'s
vertices under `point_almost_equal`, and likewise for segments, leaving no
element on either side unmatched. -/
def fullCorrespondence (d1 d2 : TileTypeDrawing) : Prop :=
  (∃ vp : List TileTypeDrawVertex, d2.vertices.Perm vp ∧
    List.Forall₂ (fun b a => point_almost_equal b.location a.location = true)
      d1.vertices vp) ∧
  (∃ sp : List TileTypeDrawSegment, d2.segments.Perm sp ∧
    List.Forall₂ (fun b a => segment_almost_equal b a = true)
      d1.segments sp)

/-- C3 counterexample: the empty drawing is `is_almost_equal` to a drawing
with one vertex, yet no correspondence matches every element of both sides
exactly once — the argument's vertex is left unmatched and the result is
still `true`. -/
theorem C3_correspondence_counterexample :
    exDrawEmpty.is_almost_equal exDrawOneVertex = true ∧
    ¬ fullCorrespondence exDrawEmpty exDrawOneVertex := by
  refine ⟨by decide, ?_⟩
  rintro ⟨⟨vp, hperm, hf⟩, -⟩
  have hvp : vp = [] := List.forall₂_nil_left_iff.mp hf
  rw [hvp] at hperm
  have hlen := hperm.length_eq
  simp [exDrawOneVertex] at hlen

/-- C3 amended: when `d1.is_almost_equal d2` returns `true`, the greedy
first-match procedure has paired every vertex and segment of `d1` with a
distinct vertex/segment of `d2` (an injective matching into `d2`, witnessed
by a sub-permutation); elements of `d2` may remain unmatched, so the
two-sided exhaustion demanded by the original claim need not hold. -/
theorem C3_greedy_injective (d1 d2 : TileTypeDrawing)
    (h : d1.is_almost_equal d2 = true) :
    (∃ vp, List.Forall₂
        (fun (b a : TileTypeDrawVertex) =>
          point_almost_equal b.location a.location = true)
        d1.vertices vp ∧
      vp.Subperm d2.vertices) ∧
    (∃ sp, List.Forall₂
        (fun (b a : TileTypeDrawSegment) => segment_almost_equal b a = true)
        d1.segments sp ∧
      sp.Subperm d2.segments) := by
  unfold TileTypeDrawing.is_almost_equal at h
  rw [Bool.and_eq_true] at h
  constructor
  · obtain ⟨vp, hf, hsub⟩ := greedyAll_subperm h.1
    exact ⟨vp, hf, hsub.trans (pyset_sublist _).subperm⟩
  · obtain ⟨sp, hf, hsub⟩ := greedyAll_subperm h.2
    exact ⟨sp, hf, hsub.trans (pyset_sublist _).subperm⟩

/-- Witness for the amended C3 at a one-vertex drawing matched against
itself. -/
theorem C3_greedy_injective_witness :
    (∃ vp, List.Forall₂
        (fun (b a : TileTypeDrawVertex) =>
          point_almost_equal b.location a.location = true)
        exDrawOneVertex.vertices vp ∧
      vp.Subperm exDrawOneVertex.vertices) ∧
    (∃ sp, List.Forall₂
        (fun (b a : TileTypeDrawSegment) => segment_almost_equal b a = true)
        exDrawOneVertex.segments sp ∧
      sp.Subperm exDrawOneVertex.segments) :=
  C3_greedy_injective exDrawOneVertex exDrawOneVertex
    (is_almost_equal_self (by decide) (by decide))

/-- C9 counterexample: reflecting a drawing that lists the same vertex
twice about the x-axis twice returns the drawing unchanged, yet
`is_almost_equal` against the original is `false`, because the set built
from the other drawing's vertices collapses the duplicate and the second
greedy lookup finds no unused match. -/
theorem C9_reflect_counterexample :
    (exDrawDupVertex.reflect "x").bind (fun e => e.reflect "x") =
      some exDrawDupVertex ∧
    exDrawDupVertex.is_almost_equal exDrawDupVertex = false := by
  refine ⟨by decide, ?_⟩
  simp [exDrawDupVertex, TileTypeDrawing.is_almost_equal, pyset, greedyAll,
    greedyRemove, point_almost_equal_self]

/-- C9 amended: for a drawing whose vertex list and segment list contain no
exact duplicates, reflecting twice about the same valid axis succeeds and
the result is `is_almost_equal` to the original drawing (indeed it is the
original drawing). -/
theorem C9_reflect_involutive (d : TileTypeDrawing) (axis : String)
    (hax : axis = "x" ∨ axis = "y") (hv : d.vertices.Nodup)
    (hs : d.segments.Nodup) :
    ∃ d2, (d.reflect axis).bind (fun e => e.reflect axis) = some d2 ∧
      d2.is_almost_equal d = true :=
  ⟨d, drawing_reflect_reflect hax d, is_almost_equal_self hv hs⟩

/-- Witness for the amended C9 at the one-vertex drawing and axis `"x"`. -/
theorem C9_reflect_involutive_witness :
    (("x" : String) = "x" ∨ ("x" : String) = "y") ∧
    exDrawOneVertex.vertices.Nodup ∧ exDrawOneVertex.segments.Nodup ∧
    ∃ d2, (exDrawOneVertex.reflect "x").bind (fun e => e.reflect "x") =
        some d2 ∧
      d2.is_almost_equal exDrawOneVertex = true :=
  ⟨Or.inl rfl, by decide, by decide,
    C9_reflect_involutive exDrawOneVertex "x" (Or.inl rfl) (by decide)
      (by decide)⟩

/-- C10: `is_almost_equal` is not symmetric: the empty drawing is
almost-equal to every drawing (both greedy loops are vacuous), in
particular to the one-vertex drawing, while the one-vertex drawing is not
almost-equal to the empty drawing. -/
theorem C10_empty_drawing_asymmetry :
    (∀ d : TileTypeDrawing, exDrawEmpty.is_almost_equal d = true) ∧
    exDrawEmpty.is_almost_equal exDrawOneVertex = true ∧
    exDrawOneVertex.is_almost_equal exDrawEmpty = false :=
  ⟨fun d => rfl, by decide, by decide⟩

/-! Claim C8: status interpretation and extraction integrity of `solve`. -/

theorem extract_cell_go_all_false :
    ∀ (l : List Bool) (k : ℕ) (acc : Option ℕ), l.count true = 0 →
      extract_cell_go l k acc = .ok acc := by
  intro l
  induction l with
  | nil => intro k acc _; rfl
  | cons v rest ih =>
    intro k acc h
    cases v
    · unfold extract_cell_go
      rw [if_neg (by simp)]
      exact ih (k + 1) acc (by simpa using h)
    · exact absurd h (by simp [List.count_cons])

theorem extract_cell_go_some_true :
    ∀ (l : List Bool) (k j : ℕ), 1 ≤ l.count true →
      extract_cell_go l k (some j) = .error .multiple_tile_types := by
  intro l
  induction l with
  | nil => intro k j h; simp at h
  | cons v rest ih =>
    intro k j h
    cases v
    · unfold extract_cell_go
      rw [if_neg (by simp)]
      exact ih (k + 1) j (by simpa using h)
    · unfold extract_cell_go
      rw [if_pos rfl]

theorem extract_cell_go_count_one :
    ∀ (l : List Bool) (k : ℕ), l.count true = 1 →
      ∃ i, extract_cell_go l k none = .ok (some (k + i)) ∧
        l.getD i false = true := by
  intro l
  induction l with
  | nil => intro k h; simp at h
  | cons v rest ih =>
    intro k h
    cases v
    · have h' : rest.count true = 1 := by simpa using h
      obtain ⟨i, hgo, hget⟩ := ih (k + 1) h'
      refine ⟨i + 1, ?_, by simpa using hget⟩
      unfold extract_cell_go
      rw [if_neg (by simp), show k + (i + 1) = (k + 1) + i from by omega]
      exact hgo
    · have h' : rest.count true = 0 := by simpa using h
      refine ⟨0, ?_, by simp⟩
      unfold extract_cell_go
      rw [if_pos rfl]
      simpa using extract_cell_go_all_false rest (k + 1) (some k) h'

theorem extract_cell_go_count_two :
    ∀ (l : List Bool) (k : ℕ), 2 ≤ l.count true →
      extract_cell_go l k none = .error .multiple_tile_types := by
  intro l
  induction l with
  | nil => intro k h; simp at h
  | cons v rest ih =>
    intro k h
    cases v
    · unfold extract_cell_go
      rw [if_neg (by simp)]
      exact ih (k + 1) (by simpa using h)
    · unfold extract_cell_go
      rw [if_pos rfl]
      refine extract_cell_go_some_true rest (k + 1) k ?_
      have h' : (true :: rest).count true = rest.count true + 1 := by
        simp [List.count_cons]
      omega

theorem extract_cell_count_zero {l : List Bool} (h : l.count true = 0) :
    extract_cell l = .error .no_tile_type := by
  unfold extract_cell
  rw [extract_cell_go_all_false l 0 none h]

theorem extract_cell_count_two {l : List Bool} (h : 2 ≤ l.count true) :
    extract_cell l = .error .multiple_tile_types := by
  unfold extract_cell
  rw [extract_cell_go_count_two l 0 h]

theorem extract_cell_count_one {l : List Bool} (h : l.count true = 1) :
    ∃ i, extract_cell l = .ok i ∧ l.getD i false = true := by
  obtain ⟨i, hgo, hget⟩ := extract_cell_go_count_one l 0 h
  refine ⟨i, ?_, hget⟩
  unfold extract_cell
  rw [hgo]
  simp

theorem extract_solution_ok (tiles : List TileType) {cells : List (ℕ × ℕ)}
    {vals : ℕ × ℕ → List Bool}
    (h : ∀ c ∈ cells, (vals c).count true = 1) :
    ∃ m, extract_solution tiles cells vals = .ok m ∧
      List.Forall₂ (fun c (q : (ℕ × ℕ) × TileType) => q.1 = c ∧
          ∃ j, (vals c).getD j false = true ∧ q.2 = tiles.getD j default)
        cells m := by
  induction cells with
  | nil => exact ⟨[], rfl, List.Forall₂.nil⟩
  | cons c cs ih =>
    obtain ⟨i, hec, hget⟩ :=
      extract_cell_count_one (h c (List.mem_cons_self c cs))
    obtain ⟨m, hm, hf⟩ := ih (fun c hc => h c (List.mem_cons_of_mem _ hc))
    refine ⟨(c, tiles.getD i default) :: m, ?_,
      List.Forall₂.cons ⟨rfl, i, hget, rfl⟩ hf⟩
    unfold extract_solution at hm ⊢
    rw [List.mapM_cons, hec, hm]
    rfl

/-- C8: `solve` maps the infeasible status to the explicit no-solution
result, raises a fatal solver error for any status other than
optimal/feasible/infeasible, proceeds to extraction on optimal or feasible
— when every cell has exactly one true variable it returns the mapping
that pairs each cell with the orientation of its true variable — and
during extraction a cell with zero true variables raises the no-tile
integrity error while a cell with two or more raises the multiple-tile
integrity error. -/
theorem C8_solve_status_and_extraction :
    (∀ (tiles : List TileType) (cells : List (ℕ × ℕ))
        (vals : ℕ × ℕ → List Bool),
      solve .infeasible tiles cells vals = .ok none) ∧
    (∀ (st : CpSolverStatus) (tiles : List TileType)
        (cells : List (ℕ × ℕ)) (vals : ℕ × ℕ → List Bool),
      st ≠ .optimal → st ≠ .feasible → st ≠ .infeasible →
        solve st tiles cells vals = .error (.solver_failed st)) ∧
    (∀ (st : CpSolverStatus) (tiles : List TileType)
        (cells : List (ℕ × ℕ)) (vals : ℕ × ℕ → List Bool),
      st = .optimal ∨ st = .feasible →
      (∀ c ∈ cells, (vals c).count true = 1) →
        ∃ m, solve st tiles cells vals = .ok (some m) ∧
          List.Forall₂ (fun c (q : (ℕ × ℕ) × TileType) => q.1 = c ∧
              ∃ j, (vals c).getD j false = true ∧ q.2 = tiles.getD j default)
            cells m) ∧
    (∀ l : List Bool, l.count true = 0 →
      extract_cell l = .error .no_tile_type) ∧
    (∀ l : List Bool, 2 ≤ l.count true →
      extract_cell l = .error .multiple_tile_types) := by
  refine ⟨?_, ?_, ?_, ?_, ?_⟩
  · intro tiles cells vals
    rfl
  · intro st tiles cells vals h1 h2 h3
    unfold solve
    rw [if_neg (by simp [h1, h2]), if_neg h3]
  · intro st tiles cells vals hst h
    obtain ⟨m, hm, hf⟩ := extract_solution_ok tiles h
    refine ⟨m, ?_, hf⟩
    unfold solve
    rw [if_pos hst, hm]
    rfl
  · intro l h
    exact extract_cell_count_zero h
  · intro l h
    exact extract_cell_count_two h

/-- Witness for C8: concrete applications of each component, discharging
the hypotheses at explicit statuses, cell lists and variable values. -/
theorem C8_solve_status_and_extraction_witness :
    solve .infeasible [exA0] [(0, 0)] (fun _ => [true]) = .ok none ∧
    solve .unknown [exA0] [(0, 0)] (fun _ => [true]) =
      .error (.solver_failed .unknown) ∧
    (∃ m, solve .optimal [exA0] [(0, 0)] (fun _ => [true]) = .ok (some m) ∧
      List.Forall₂ (fun c (q : (ℕ × ℕ) × TileType) => q.1 = c ∧
          ∃ j, ((fun _ : ℕ × ℕ => [true]) c).getD j false = true ∧
            q.2 = [exA0].getD j default)
        [(0, 0)] m) ∧
    extract_cell [false] = .error .no_tile_type ∧
    extract_cell [true, true] = .error .multiple_tile_types :=
  ⟨C8_solve_status_and_extraction.1 [exA0] [(0, 0)] (fun _ => [true]),
    C8_solve_status_and_extraction.2.1 .unknown [exA0] [(0, 0)]
      (fun _ => [true]) (by decide) (by decide) (by decide),
    C8_solve_status_and_extraction.2.2.1 .optimal [exA0] [(0, 0)]
      (fun _ => [true]) (Or.inl rfl) (by decide),
    C8_solve_status_and_extraction.2.2.2.1 [false] (by decide),
    C8_solve_status_and_extraction.2.2.2.2 [true, true] (by decide)⟩

/-- C7: `rotate 1` cyclically permutes the four edge lists in the
counter-clockwise order bottom, right, top, left — the former left list
becomes the new bottom list — and four successive `rotate 1` calls return
all four edge-label lists to exactly their original values and order. -/
theorem C7_rotation_cycle (t : TileType) :
    ((t.rotate 1).bottom_edges = t.left_edges ∧
      (t.rotate 1).right_edges = t.bottom_edges ∧
      (t.rotate 1).top_edges = t.right_edges ∧
      (t.rotate 1).left_edges = t.top_edges) ∧
    (((((t.rotate 1).rotate 1).rotate 1).rotate 1).bottom_edges =
        t.bottom_edges ∧
      ((((t.rotate 1).rotate 1).rotate 1).rotate 1).right_edges =
        t.right_edges ∧
      ((((t.rotate 1).rotate 1).rotate 1).rotate 1).top_edges =
        t.top_edges ∧
      ((((t.rotate 1).rotate 1).rotate 1).rotate 1).left_edges =
        t.left_edges) :=
  ⟨⟨rfl, rfl, rfl, rfl⟩, ⟨rfl, rfl, rfl, rfl⟩⟩

end Tiling
